import Mathlib

/-
Verification of the scheduler-gpt-api weekly route/capacity scheduler.

The development shallowly embeds the scheduling core:
  * backend/scheduler_v5_geographic.py  (region scoring, build_daily_route,
    schedule_week_geographic day loop)
  * backend/Utilities/AI_Route_Optimizer.py (greedy baseline and simulated
    annealing refinement)
  * scheduler_V4a_fixed.py (schedule_technician_week day/week loops)
  * backend/scheduler_fillin.py (schedule_corridor_jobs)

Modelling conventions:
  * Python floats are modelled as exact rationals (ℚ).
  * Geographic coordinates are pairs (latitude, longitude) : ℚ × ℚ.  The
    haversine great-circle distance is transcendental, so every routing
    function is parametric in a distance oracle `Dist`; the route logic in
    the source only ever calls haversine as a black box.  Concrete theorems
    instantiate the oracle with explicit computable metrics.
  * random.randint / random.random draws are modelled as oracle inputs
    (index pairs and acceptance booleans), so theorems quantify over every
    possible draw sequence.
  * Dates are modelled as integer day numbers; weekday k of a week starting
    on day s is s + k.
-/

namespace SchedGPT

/-- A geographic coordinate: (latitude, longitude). -/
abbrev Loc := ℚ × ℚ

/-- Distance oracle standing for `haversine` (miles between two points). -/
abbrev Dist := Loc → Loc → ℚ

/-- Round to the nearest integer, ties to even — the semantics of Python
`round` (modelled exactly on ℚ, ignoring binary-float representation). -/
def roundHalfEven (x : ℚ) : ℤ :=
  let f : ℤ := ⌊x⌋
  let r : ℚ := x - f
  if r < 1/2 then f
  else if 1/2 < r then f + 1
  else if f % 2 = 0 then f else f + 1

/-- Python `round(x, 2)`. -/
def round2 (x : ℚ) : ℚ := (roundHalfEven (x * 100) : ℚ) / 100

/-- Drive time in hours at the default 55 mph average speed
(`calculate_drive_time` in scheduler_v5_geographic.py / scheduler_utils). -/
def calculate_drive_time (distance_miles : ℚ) : ℚ := distance_miles / 55

/- ===================================================================
   Region selector (scheduler_v5_geographic.py, STEP 2, lines 354-387)
   =================================================================== -/

/-- One row of the per-region aggregates consumed by the scoring loop of
`schedule_week_geographic` (produced upstream by the
`analyze_regions_for_tech` RPC).  `avg_days_til_due` is nullable in the
database, hence `Option`.  The region's name is kept as an integer tag so
distinct regions are distinguishable. -/
structure Region where
  region_name : ℤ
  priority_job_count : ℤ
  recurring_count : ℤ
  requires_hotel : Bool
  total_work_hours : ℚ
  job_count : ℚ
  distance_from_home : ℚ
  avg_days_til_due : Option ℚ
deriving DecidableEq, Repr

/-- The additive score computed for one region (source lines 357-379).
Note the Python guard `if region['avg_days_til_due'] and ... < 14` tests
truthiness first, so a null or ZERO average yields no urgency bonus. -/
def regionScore (r : Region) : ℚ :=
  let s1 : ℚ := 0 + r.priority_job_count * 100
  let s2 : ℚ := s1 + r.recurring_count * 50
  let s3 : ℚ :=
    if r.requires_hotel then (if 16 ≤ r.total_work_hours then s2 + 50 else s2 - 200) else s2
  let s4 : ℚ :=
    if 0 < r.distance_from_home then s3 + (r.job_count / r.distance_from_home) * 10 else s3
  match r.avg_days_til_due with
  | some v => if v ≠ 0 ∧ v < 14 then s4 + 30 else s4
  | none => s4

/-- The score as stored on the region row: `region['score'] = round(score, 2)`
(line 380). -/
def regionScoreStored (r : Region) : ℚ := round2 (regionScore r)

/-- Region selection (line 385): `max(all_regions, key=lambda r: r['score'])`.
Python `max` returns the first element attaining the maximum. -/
def pickRegion (regions : List Region) : Option Region :=
  regions.argmax regionScoreStored

/-- Region score exactly as the spec words it (reference definition for the
refinement comparison): the urgency bonus is `+30` whenever the average
days-until-due is less than 14. -/
def specRegionScore (r : Region) : ℚ :=
  r.priority_job_count * 100 + r.recurring_count * 50
    + (if r.requires_hotel then (if 16 ≤ r.total_work_hours then 50 else -200) else 0)
    + (if 0 < r.distance_from_home then (r.job_count / r.distance_from_home) * 10 else 0)
    + (match r.avg_days_til_due with
       | some v => if v < 14 then (30 : ℚ) else 0
       | none => 0)

/- ===================================================================
   Corridor gap-fill decision (scheduler_fillin.py, schedule_corridor_jobs,
   lines 273-390)
   =================================================================== -/

/-- The job fields `schedule_corridor_jobs` reads: coordinates and duration
(plus an identifier). -/
structure CJob where
  work_order : ℤ
  loc : Loc
  duration : ℚ
deriving DecidableEq, Repr

/-- Result record of `schedule_corridor_jobs`; the human-readable `reason`
string of the source is presentational and not modelled. -/
structure CorridorResult where
  jobs_to_schedule : List CJob
  bump_destination : Bool
deriving DecidableEq, Repr

/-- Sort corridor jobs by distance from the start location (source lines
300-303; Python `sorted` is stable). -/
def corridorSort (dist : Dist) (start : Loc) (jobs : List CJob) : List CJob :=
  jobs.mergeSort (fun a b => dist start a.loc ≤ dist start b.loc)

/-- Sequential proximity clustering (source lines 306-321): walk the sorted
list, extending the current cluster while the next job is within 15 miles of
the cluster's last job. -/
def clusterStep (dist : Dist) (acc : List (List CJob) × List CJob) (job : CJob) :
    List (List CJob) × List CJob :=
  match acc with
  | (clusters, []) => (clusters, [job])
  | (clusters, current) =>
    match current.getLast? with
    | some last =>
      if dist last.loc job.loc ≤ 15 then (clusters, current ++ [job])
      else (clusters ++ [current], [job])
    | none => (clusters, [job])

/-- Build the proximity clusters of the sorted corridor jobs. -/
def buildClusters (dist : Dist) (sorted : List CJob) : List (List CJob) :=
  let p := sorted.foldl (clusterStep dist) ([], [])
  if p.2 = [] then p.1 else p.1 ++ [p.2]

/-- Total work hours of a cluster. -/
def clusterWork (c : List CJob) : ℚ := (c.map (·.duration)).sum

/-- Drive from `start` through the cluster in order; returns the accumulated
drive hours and the final location (source lines 331-335 / 356-360). -/
def clusterDrive (dist : Dist) (start : Loc) (c : List CJob) : ℚ × Loc :=
  c.foldl (fun acc j => (acc.1 + calculate_drive_time (dist acc.2 j.loc), j.loc)) (0, start)

/-- Clusters ranked by total work time, biggest first (source line 324;
Python `list.sort` is stable). -/
def rankedClusters (dist : Dist) (start : Loc) (jobs : List CJob) : List (List CJob) :=
  (buildClusters dist (corridorSort dist start jobs)).mergeSort
    (fun a b => clusterWork b ≤ clusterWork a)

/-- Time to run a cluster and then continue to the destination and do the
destination's work (the bound checked at source line 342-344). -/
def clusterWithDestTime (dist : Dist) (start endLoc : Loc) (destDuration : ℚ)
    (c : List CJob) : ℚ :=
  let d := clusterDrive dist start c
  clusterWork c + d.1 + calculate_drive_time (dist d.2 endLoc) + destDuration

/-- Time to run a cluster alone (the bound checked at source line 362). -/
def clusterAloneTime (dist : Dist) (start : Loc) (c : List CJob) : ℚ :=
  clusterWork c + (clusterDrive dist start c).1

/-- The greedy fallback (source lines 369-384): pack corridor jobs in sorted
order, admitting a job only if, after it, the remaining drive to the
destination plus the destination's work still fits. -/
def packAroundDest (dist : Dist) (endLoc : Loc) (availableHours destDuration : ℚ) :
    List CJob → List CJob → ℚ → Loc → List CJob
  | [], fit, _, _ => fit
  | job :: rest, fit, timeUsed, prev =>
    let driveTo := calculate_drive_time (dist prev job.loc)
    let jobToDest := calculate_drive_time (dist job.loc endLoc)
    let totalIfAdded := timeUsed + driveTo + job.duration + jobToDest + destDuration
    if totalIfAdded ≤ availableHours then
      packAroundDest dist endLoc availableHours destDuration rest (fit ++ [job])
        (timeUsed + driveTo + job.duration) job.loc
    else
      packAroundDest dist endLoc availableHours destDuration rest fit timeUsed prev

/-- `schedule_corridor_jobs` (source lines 273-390).  The
`travel_time_to_destination` argument is kept because the source computes
`time_available_for_corridor` from it (line 297), though that value is never
read afterwards. -/
def schedule_corridor_jobs (dist : Dist) (corridor_jobs : List CJob)
    (start_location end_location : Loc) (available_hours : ℚ)
    (travel_time_to_destination destination_job_duration : ℚ)
    (destination_can_be_bumped : Bool) : CorridorResult :=
  if corridor_jobs = [] then ⟨[], false⟩
  else
    let _time_for_dest := travel_time_to_destination + destination_job_duration
    let sorted := corridorSort dist start_location corridor_jobs
    let clusters := rankedClusters dist start_location corridor_jobs
    match clusters.find? (fun c =>
        clusterWithDestTime dist start_location end_location destination_job_duration c
          ≤ available_hours) with
    | some c => ⟨c, false⟩
    | none =>
      match (if destination_can_be_bumped then
               clusters.find? (fun c =>
                 clusterAloneTime dist start_location c ≤ available_hours)
             else none) with
      | some c => ⟨c, true⟩
      | none =>
        ⟨packAroundDest dist end_location available_hours destination_job_duration
          sorted [] 0 start_location, false⟩

/- ===================================================================
   Route-order optimizer (backend/Utilities/AI_Route_Optimizer.py,
   class SmartRouter)
   =================================================================== -/

namespace SmartRouter

/-- `OptimizationJob` dataclass (lines 8-14). -/
structure OptJob where
  id : ℤ
  loc : Loc
  duration : ℚ
  priority_score : ℚ
deriving DecidableEq, Repr

/-- `calculate_route_cost` (lines 38-58): fold the route accumulating drive
miles and work hours from the start location; returns
(total_hours, total_miles).  avg_speed is the constructor default 55. -/
def calculate_route_cost (dist : Dist) (route : List OptJob) (start : Loc) : ℚ × ℚ :=
  let f := route.foldl (fun acc j => (acc.1 + dist acc.2.1 j.loc, j.loc, acc.2.2 + j.duration))
    ((0 : ℚ), start, (0 : ℚ))
  (f.1 / 55 + f.2.2, f.1)

/-- Total route miles. -/
def routeMiles (dist : Dist) (route : List OptJob) (start : Loc) : ℚ :=
  (calculate_route_cost dist route start).2

/-- Total route hours (drive plus work). -/
def routeHours (dist : Dist) (route : List OptJob) (start : Loc) : ℚ :=
  (calculate_route_cost dist route start).1

/-- One iteration of `_greedy_initial_solution`'s while loop (lines 114-134),
with `fuel` bounding the recursion by the pool size (each iteration removes
the selected job from `remaining`). -/
def greedyLoop (dist : Dist) (maxHours : ℚ) :
    ℕ → List OptJob → Loc → ℚ → List OptJob
  | 0, _, _, _ => []
  | n + 1, remaining, curr, currentTime =>
    match remaining.argmin (fun x => dist curr x.loc) with
    | none => []
    | some nearest =>
      let d := dist curr nearest.loc
      let timeCost := d / 55 + nearest.duration
      if currentTime + timeCost ≤ maxHours then
        nearest :: greedyLoop dist maxHours n (remaining.erase nearest)
          nearest.loc (currentTime + timeCost)
      else []

/-- `_greedy_initial_solution` (lines 114-134). -/
def greedy_initial_solution (dist : Dist) (pool : List OptJob) (start : Loc)
    (maxHours : ℚ) : List OptJob :=
  greedyLoop dist maxHours pool.length pool start 0

/-- Swap the stops at positions i and j (line 157).  `random.randint` always
draws in-range indices; an out-of-range index (never produced by the source)
is modelled as a no-op. -/
def swapPositions (l : List OptJob) (i j : ℕ) : List OptJob :=
  match l.get? i, l.get? j with
  | some a, some b => (l.set i b).set j a
  | _, _ => l

/-- One random draw of the annealing loop: the two positions from
`random.randint` and the outcome of the comparison
`random.random() < math.exp(-delta / T)` (only consulted when `delta ≥ 0`;
for `delta < 0` the Python `or` short-circuits). -/
structure SaRand where
  i : ℕ
  j : ℕ
  accept : Bool

/-- One iteration of the annealing while loop (lines 148-176): build the
neighbour by swapping, reject outright unless `new_h ≤ max_hours`, otherwise
accept on improvement or on the probabilistic draw, tracking the best route
by total miles.  State is (current_route, best_route). -/
def saStep (dist : Dist) (start : Loc) (maxHours : ℚ)
    (st : List OptJob × List OptJob) (r : SaRand) : List OptJob × List OptJob :=
  match st with
  | (currentRoute, bestRoute) =>
    if currentRoute = [] then (currentRoute, bestRoute)
    else
      let newRoute := swapPositions currentRoute r.i r.j
      let currM := routeMiles dist currentRoute start
      let newH := routeHours dist newRoute start
      let newM := routeMiles dist newRoute start
      if newH ≤ maxHours then
        let delta := newM - currM
        if delta < 0 ∨ r.accept then
          let best2 := if newM < routeMiles dist bestRoute start then newRoute else bestRoute
          (newRoute, best2)
        else (currentRoute, bestRoute)
      else (currentRoute, bestRoute)

/-- `_simulated_annealing` (lines 136-178).  The geometric cooling schedule
(T from 100 down to 0.1 by factor 0.99) fixes the number of iterations; the
loop is modelled by folding over the per-iteration random draws, quantifying
over every length and draw sequence.  When the route is empty the source
breaks immediately; the modelled step is then the identity, so the fold
returns the same value the break does. -/
def simulated_annealing (dist : Dist) (initialRoute : List OptJob) (start : Loc)
    (maxHours : ℚ) (rands : List SaRand) : List OptJob :=
  (rands.foldl (saStep dist start maxHours) (initialRoute, initialRoute)).2

end SmartRouter

/- ===================================================================
   Geographic weekly scheduler (scheduler_v5_geographic.py)
   =================================================================== -/

/-- Job dataclass of scheduler_v5_geographic.py (lines 17-35), restricted to
the fields the routing logic reads (work order identity, coordinates folded
into `loc`, duration); display-only fields (site/city names, SOW string,
start_time) are omitted.  Python dataclass equality compares all fields, so
`DecidableEq` mirrors the `in` / `.remove` semantics. -/
structure Job where
  work_order : ℤ
  loc : Loc
  duration : ℚ
deriving DecidableEq, Repr

/-- The while loop of `build_daily_route` (lines 266-293), run with `fuel`
initialised to the pool size (each iteration removes the nearest job from
`remaining`).  Python `min` returns the first minimiser, as does
`List.argmin`.  Returns (scheduled jobs, work hours, drive hours, final
location). -/
def buildLoop (dist : Dist) (maxDaily maxWork : ℚ) :
    ℕ → List Job → Loc → ℚ → ℚ → List Job × ℚ × ℚ × Loc
  | 0, _, cur, work, drive => ([], work, drive, cur)
  | n + 1, remaining, cur, work, drive =>
    if work < maxWork then
      match remaining.argmin (fun j => dist cur j.loc) with
      | none => ([], work, drive, cur)
      | some nearest =>
        let dt := calculate_drive_time (dist cur nearest.loc)
        if work + drive + dt + nearest.duration ≤ maxDaily then
          let r := buildLoop dist maxDaily maxWork n (remaining.erase nearest) nearest.loc
            (work + nearest.duration) (drive + dt)
          (nearest :: r.1, r.2)
        else ([], work, drive, cur)
    else ([], work, drive, cur)

/-- `build_daily_route` (lines 244-295); defaults max_daily_hours=12,
max_work_hours=10.5. -/
def build_daily_route (dist : Dist) (jobs : List Job) (start_location : Loc)
    (max_daily_hours : ℚ := 12) (max_work_hours : ℚ := 21/2) :
    List Job × ℚ × ℚ × Loc :=
  buildLoop dist max_daily_hours max_work_hours jobs.length jobs start_location 0 0

/-- One produced day of `schedule_week_geographic`.  The raw (unrounded)
hour totals are kept; the emitted `DaySchedule` stores `round2` of them
(lines 513-515) while the weekly accumulator uses the raw values
(line 529). -/
structure DayResult where
  jobs : List Job
  work_hours : ℚ
  route_drive : ℚ
  total_drive : ℚ
  total_hours : ℚ
  hotel : Bool
  end_location : Loc
  next_location : Loc
  remaining : List Job
deriving DecidableEq, Repr

/-- The recorded day total as stored in the emitted DaySchedule
(`round(total_hours, 2)`, line 515). -/
def DayResult.stored_total (r : DayResult) : ℚ := round2 r.total_hours

/-- One working-day body of the `schedule_week_geographic` day loop
(lines 459-529): build the route, re-add the home-to-first-job drive when
starting from home (lines 471-482 — `build_daily_route` already charged this
leg, so it is counted twice), remove the scheduled jobs from the pool, then
the hotel / drive-home decision (lines 488-528).  `calculate_start_times`
only fills display start-time strings and is not modelled.  The source calls
`build_daily_route` twice with identical arguments (lines 459-469); the
function is pure, so the single call here is equivalent. -/
def v5Day (dist : Dist) (home : Loc) (remaining : List Job) (cur : Loc)
    (adjusted_daily_hours : ℚ) (dayIdx : ℕ) : DayResult :=
  let r := build_daily_route dist remaining cur adjusted_daily_hours
  let daily_jobs := r.1
  let work := r.2.1
  let drive0 := r.2.2.1
  let endLoc := r.2.2.2
  let drive1 :=
    if dayIdx = 0 ∨ cur = home then
      match daily_jobs.head? with
      | some first => drive0 + calculate_drive_time (dist home first.loc)
      | none => drive0
    else drive0
  let remaining2 := daily_jobs.foldl (fun acc j => acc.erase j) remaining
  let distHome := dist endLoc home
  let driveHome := calculate_drive_time distHome
  let hotel := if dayIdx = 4 then false else decide (90 < distHome)
  let totalDrive := if hotel then drive1 else drive1 + driveHome
  { jobs := daily_jobs, work_hours := work, route_drive := drive1,
    total_drive := totalDrive, total_hours := work + totalDrive,
    hotel := hotel, end_location := endLoc,
    next_location := if hotel then endLoc else home, remaining := remaining2 }

/-- Technician record fields read by `schedule_week_geographic`
(lines 329-331).  `max_weekly_hours` is read at line 331 and never consulted
again by the builder. -/
structure Technician where
  home : Loc
  max_daily_hours : ℚ
  max_weekly_hours : ℚ
deriving DecidableEq, Repr

/-- Accumulated state of the Monday-to-Friday loop of
`schedule_week_geographic`. -/
structure V5WeekState where
  cur : Loc
  remaining : List Job
  total : ℚ
  days : List DayResult
deriving DecidableEq, Repr

/-- One iteration of the day loop (lines 413-529): apply the time-off
reduction (`hours_per_day` of an approved request, else the technician's
max), emit an empty day and `continue` on a full day off (the current
location is left untouched), otherwise run the day body and roll the
location and weekly total forward. -/
def v5WeekStep (dist : Dist) (tech : Technician) (timeOff : ℕ → Option ℚ)
    (st : V5WeekState) (dayIdx : ℕ) : V5WeekState :=
  let adjusted := match timeOff dayIdx with
    | none => tech.max_daily_hours
    | some h => h
  if adjusted ≤ 0 then
    let offDay : DayResult :=
      { jobs := [], work_hours := 0, route_drive := 0,
        total_drive := 0, total_hours := 0, hotel := false,
        end_location := tech.home, next_location := st.cur, remaining := st.remaining }
    { st with days := st.days ++ [offDay] }
  else
    let d := v5Day dist tech.home st.remaining st.cur adjusted dayIdx
    { cur := d.next_location, remaining := d.remaining,
      total := st.total + d.total_hours, days := st.days ++ [d] }

/-- `schedule_week_geographic`, STEP 4 (lines 404-529): the five-weekday
route-building loop.  Region analysis/selection (STEP 1-3) supplies `jobs`;
the technician record supplies the caps.  Note that `max_weekly_hours` never
constrains this loop. -/
def schedule_week_geographic (dist : Dist) (tech : Technician) (jobs : List Job)
    (timeOff : ℕ → Option ℚ) : V5WeekState :=
  [0, 1, 2, 3, 4].foldl (v5WeekStep dist tech timeOff) ⟨tech.home, jobs, 0, []⟩

/- ===================================================================
   V4a scheduler (scheduler_V4a_fixed.py, schedule_technician_week)
   =================================================================== -/

namespace V4a

/-- One row of the V4a working set: the job-pool columns read by
`schedule_technician_week`.  Dates are integer day numbers. -/
structure VJob where
  work_order : ℤ
  site_name : String
  loc : Loc
  duration : ℚ
  sow_1 : String
  night_test : Bool
  is_recurring_site : Bool
  due_date : ℤ
  days_til_due : ℤ
  is_priority : Bool
  cluster_id : ℤ
  zone_3 : ℤ
deriving DecidableEq, Repr

/-- `get_travel_time` (lines 34-46): the module-level site-distance matrix is
an empty frame that is never populated, so the haversine/50 fallback always
applies. -/
def get_travel_time (dist : Dist) (a b : Loc) : ℚ := dist a b / 50

/-- `filter_for_date` (lines 197-203): recurring sites only on their exact
due date, others on or before it. -/
def filter_for_date (pool : List VJob) (d : ℤ) : List VJob :=
  pool.filter (fun j => (j.is_recurring_site && decide (j.due_date = d))
    || (!j.is_recurring_site && decide (d ≤ j.due_date)))

/-- Substring containment (Python `str.contains` on a literal pattern). -/
def strContains (hay needle : String) : Bool := decide (needle.data <:+: hay.data)

/-- The Friday site-name restriction of `add_travel_and_capacity`
(line 222): the regex `King Soopers|City Market|Alta`. -/
def fridayBlocked (s : String) : Bool :=
  strContains s "King Soopers" || strContains s "City Market" || strContains s "Alta"

/-- A candidate row with its computed `travel_time` and `total_time`
columns. -/
structure Cand where
  job : VJob
  travel_time : ℚ
  total_time : ℚ
deriving DecidableEq, Repr

/-- `add_travel_and_capacity` (lines 205-224): compute travel and total time
from the current location, drop Friday-restricted sites when the weekday is
Friday (4), then keep only rows that fit the remaining daily capacity. -/
def add_travel_and_capacity (dist : Dist) (df : List VJob) (cur : Loc)
    (daily_hours max_hours : ℚ) (weekday : ℤ) : List Cand :=
  let out := df.map (fun j =>
    let t := get_travel_time dist cur j.loc
    Cand.mk j t (t + j.duration))
  let out := if weekday = 4 then out.filter (fun c => !fridayBlocked c.job.site_name) else out
  out.filter (fun c => decide (c.total_time + daily_hours ≤ max_hours))

/-- The `pick_next` sort key (lines 226-233): is_priority descending, then
days_til_due, travel_time, duration ascending. -/
def candKey (c : Cand) : ℕ ×ₗ ℤ ×ₗ ℚ ×ₗ ℚ :=
  toLex ((if c.job.is_priority then 0 else 1),
    toLex (c.job.days_til_due, toLex (c.travel_time, c.job.duration)))

/-- `pick_next` (lines 226-233): first row of the sorted frame.  pandas
`sort_values` leaves the order of exact key ties unspecified (quicksort);
the first minimiser is taken here, and all concrete inputs below avoid key
ties. -/
def pick_next (l : List Cand) : Option Cand := l.argmin candKey

/-- One scheduled line of `daily_schedule` (the dict built at lines
278-286 etc.). -/
structure SchedEntry where
  work_order : ℤ
  travel_time : ℚ
  job_time : ℚ
  total_time : ℚ
  night_job : Bool
deriving DecidableEq, Repr

/-- The mutable state threaded through one day of the scheduler: the three
pools, current location and zone, the day and week hour accumulators, the
pre-night counter, the day's schedule lines and the recovery flag for the
next day.  The `site` component of the source's current-location dict only
feeds the (always-empty) distance matrix and is not modelled. -/
structure DaySt where
  in_scope : List VJob
  anchor_pool : List VJob
  filler_pool : List VJob
  cur : Loc
  zone : Option ℤ
  daily : ℚ
  totalWeek : ℚ
  preNight : ℕ
  entries : List SchedEntry
  recoveryNext : Bool
deriving DecidableEq, Repr

/-- `remove_from_pools` (lines 190-194). -/
def remove_from_pools (wo : ℤ) (st : DaySt) : DaySt :=
  { st with in_scope := st.in_scope.filter (fun j => j.work_order ≠ wo),
            anchor_pool := st.anchor_pool.filter (fun j => j.work_order ≠ wo),
            filler_pool := st.filler_pool.filter (fun j => j.work_order ≠ wo) }

/-- Book one picked candidate: append the schedule line, advance the hour
accumulators and current location/zone, and remove it from the pools (the
common body of the anchor, filler and night placements). -/
def scheduleCand (c : Cand) (st : DaySt) : DaySt :=
  let e : SchedEntry :=
    ⟨c.job.work_order, c.travel_time, c.job.duration, c.total_time, c.job.night_test⟩
  remove_from_pools c.job.work_order
    { st with daily := st.daily + c.total_time, totalWeek := st.totalWeek + c.total_time,
              cur := c.job.loc, zone := some c.job.zone_3, entries := st.entries ++ [e] }

/-- The anchor-SOW while loop (lines 294-324), with `fuel` bounding the
iterations by the size of `anchor_today` (each pass removes the picked work
order from it). -/
def anchorLoop (dist : Dist) (max_hours : ℚ) (wd : ℤ) (nightPresent : Bool)
    (preNightCap : ℕ) : ℕ → List VJob → DaySt → DaySt
  | 0, _, st => st
  | n + 1, anchor_today, st =>
    if st.daily < max_hours ∧ anchor_today ≠ [] then
      if nightPresent ∧ 0 < preNightCap ∧ preNightCap ≤ st.preNight then st
      else
        let candidates := add_travel_and_capacity dist anchor_today st.cur st.daily max_hours wd
        if candidates = [] then st
        else
          let non_night := candidates.filter (fun c => !c.job.night_test)
          match pick_next non_night with
          | none => st
          | some pick =>
            let st2 := scheduleCand pick st
            let st3 := if nightPresent ∧ pick.job.night_test = false then
                { st2 with preNight := st2.preNight + 1 } else st2
            anchorLoop dist max_hours wd nightPresent preNightCap n
              (anchor_today.filter (fun j => j.work_order ≠ pick.job.work_order)) st3
    else st

/-- The filler candidate cascade (lines 333-344 and 367-379): assigned
clusters within the drive radius, then anything within the radius, then the
current zone_3 (no radius), then anything (no radius).
`filler_today_all` is recomputed from the current filler pool each time. -/
def fillerStepCands (dist : Dist) (assigned : List ℤ) (maxDriveMinutes : ℚ)
    (max_hours : ℚ) (wd d : ℤ) (st : DaySt) : List Cand :=
  let fillerTodayAll := filter_for_date st.filler_pool d
  let s1 := (add_travel_and_capacity dist
      (fillerTodayAll.filter (fun j => decide (j.cluster_id ∈ assigned)))
      st.cur st.daily max_hours wd).filter
      (fun c => decide (c.travel_time ≤ maxDriveMinutes / 60))
  if s1 ≠ [] then s1
  else
    let s2 := (add_travel_and_capacity dist fillerTodayAll st.cur st.daily max_hours
        wd).filter (fun c => decide (c.travel_time ≤ maxDriveMinutes / 60))
    if s2 ≠ [] then s2
    else
      let s3 := match st.zone with
        | some z => add_travel_and_capacity dist
            (fillerTodayAll.filter (fun j => decide (j.zone_3 = z))) st.cur st.daily
            max_hours wd
        | none => []
      if s3 ≠ [] then s3
      else add_travel_and_capacity dist fillerTodayAll st.cur st.daily max_hours wd

/-- The in-day filler while loop (lines 346-381), with `fuel` bounding the
iterations by the filler-pool size (each pass removes the picked job from
the pools). -/
def fillerLoop (dist : Dist) (assigned : List ℤ) (maxDriveMinutes max_hours : ℚ)
    (wd d : ℤ) (nightPresent : Bool) (preNightCap : ℕ) :
    ℕ → List Cand → DaySt → DaySt
  | 0, _, st => st
  | n + 1, step, st =>
    if st.daily < max_hours ∧ step ≠ [] then
      if nightPresent ∧ 0 < preNightCap ∧ preNightCap ≤ st.preNight then st
      else
        match pick_next step with
        | none => st
        | some pick =>
          let st2 := scheduleCand pick st
          let step2 := fillerStepCands dist assigned maxDriveMinutes max_hours wd d st2
          let st3 := if nightPresent ∧ pick.job.night_test = false then
              { st2 with preNight := st2.preNight + 1 } else st2
          fillerLoop dist assigned maxDriveMinutes max_hours wd d nightPresent
            preNightCap n step2 st3
    else st

/-- The filler phase guard and initial cascade (lines 330-345). -/
def fillerPhase (dist : Dist) (assigned : List ℤ) (maxDriveMinutes max_hours : ℚ)
    (wd d : ℤ) (nightPresent : Bool) (preNightCap : ℕ) (allowFiller : Bool)
    (st : DaySt) : DaySt :=
  if allowFiller ∧ st.daily < max_hours then
    if nightPresent ∧ 0 < preNightCap ∧ preNightCap ≤ st.preNight then st
    else
      let step := fillerStepCands dist assigned maxDriveMinutes max_hours wd d st
      fillerLoop dist assigned maxDriveMinutes max_hours wd d nightPresent preNightCap
        st.filler_pool.length step st
  else st

/-- The end-of-day night placement (lines 383-427).  A fixed night job is
placed unconditionally; otherwise, when a night job was present at the start
of the day, a candidate is picked from the day-start snapshot
`night_today_all` (note: the snapshot, not the live pool) subject to the
capacity filter.  Scheduling a night job marks the next day for recovery.
In the snapshot every job has `night_test = true`, matching the literal
`'night_job': True` of the source lines. -/
def nightPhase (dist : Dist) (max_hours : ℚ) (wd : ℤ) (nightSnapshot : List VJob)
    (fixedNight : List VJob) (st : DaySt) : DaySt :=
  match fixedNight.head? with
  | some r =>
    let travel := get_travel_time dist st.cur r.loc
    let total := travel + r.duration
    let e : SchedEntry := ⟨r.work_order, travel, r.duration, total, true⟩
    let st2 := remove_from_pools r.work_order
      { st with daily := st.daily + total, totalWeek := st.totalWeek + total,
                cur := r.loc, zone := some r.zone_3, entries := st.entries ++ [e] }
    { st2 with recoveryNext := true }
  | none =>
    if nightSnapshot ≠ [] then
      let cands := add_travel_and_capacity dist nightSnapshot st.cur st.daily max_hours wd
      if cands ≠ [] then
        match pick_next cands with
        | some pick => { scheduleCand pick st with recoveryNext := true }
        | none => st
      else st
    else st

/-- The drive-home step (lines 429-439): only when something was scheduled;
drive home when within 85 miles or on the last day of the window, and only
if the return leg still fits the daily cap. -/
def driveHomePhase (dist : Dist) (home : Loc) (max_hours : ℚ) (d week_end : ℤ)
    (st : DaySt) : DaySt :=
  if st.entries ≠ [] then
    let dist_home := dist st.cur home
    if dist_home ≤ 85 ∨ d = week_end then
      let return_time := dist_home / 50
      if st.daily + return_time ≤ max_hours then
        { st with daily := st.daily + return_time,
                  totalWeek := st.totalWeek + return_time, cur := home }
      else st
    else st
  else st

/-- One produced day: `{'date': ..., 'jobs': ..., 'total_hours': ...}`. -/
structure DayOut where
  date : ℤ
  jobs : List SchedEntry
  total_hours : ℚ
deriving DecidableEq, Repr

/-- The state carried across days by `schedule_technician_week`. -/
structure WeekSt where
  in_scope : List VJob
  anchor_pool : List VJob
  filler_pool : List VJob
  cur : Loc
  zone : Option ℤ
  totalWeek : ℚ
  recovery : Bool
  schedule : List DayOut
deriving DecidableEq, Repr

/-- One weekday body of the while loop (lines 250-444): the recovery-day
halving of the daily cap, the day-start night snapshot, fixed jobs pinned to
this date (day jobs placed unconditionally in order, night-fixed held for
the end), the anchor phase, the filler phase, the night placement, the
drive-home step, and appending the day when anything was scheduled. -/
def v4aDay (dist : Dist) (home : Loc) (maxDaily : ℚ) (assigned : List ℤ)
    (allowFiller : Bool) (maxDriveMinutes : ℚ) (preNightCap : ℕ)
    (fixed_by_date : List (ℤ × List ℤ)) (job_pool : List VJob)
    (d week_end wd : ℤ) (ws : WeekSt) : WeekSt :=
  let max_hours := maxDaily * (if ws.recovery then (1 : ℚ)/2 else 1)
  let st0 : DaySt :=
    { in_scope := ws.in_scope, anchor_pool := ws.anchor_pool,
      filler_pool := ws.filler_pool, cur := ws.cur, zone := ws.zone, daily := 0,
      totalWeek := ws.totalWeek, preNight := 0, entries := [], recoveryNext := false }
  let nightSnapshot := filter_for_date (st0.in_scope.filter (·.night_test)) d
  let nightPresent := nightSnapshot ≠ []
  let fixedWos := ((fixed_by_date.filter (fun p => p.1 = d)).map (·.2)).flatten
  let fixedRows := fixedWos.filterMap
    (fun wo => (job_pool.filter (fun j => j.work_order = wo)).head?)
  let fixedDay := fixedRows.filter (fun r => !r.night_test)
  let fixedNight := fixedRows.filter (·.night_test)
  let st1 := fixedDay.foldl (fun st r =>
    let travel := get_travel_time dist st.cur r.loc
    let total := travel + r.duration
    let e : SchedEntry := ⟨r.work_order, travel, r.duration, total, r.night_test⟩
    remove_from_pools r.work_order
      { st with daily := st.daily + total, totalWeek := st.totalWeek + total,
                cur := r.loc, zone := some r.zone_3, entries := st.entries ++ [e] }) st0
  let anchor_today := filter_for_date st1.anchor_pool d
  let st2 := anchorLoop dist max_hours wd nightPresent preNightCap
    anchor_today.length anchor_today st1
  let st3 := fillerPhase dist assigned maxDriveMinutes max_hours wd d nightPresent
    preNightCap allowFiller st2
  let st4 := nightPhase dist max_hours wd nightSnapshot fixedNight st3
  let st5 := driveHomePhase dist home max_hours d week_end st4
  let newSched := if st5.entries ≠ [] then
      ws.schedule ++ [⟨d, st5.entries, st5.daily⟩] else ws.schedule
  { in_scope := st5.in_scope, anchor_pool := st5.anchor_pool,
    filler_pool := st5.filler_pool, cur := st5.cur, zone := st5.zone,
    totalWeek := st5.totalWeek, recovery := st5.recoveryNext, schedule := newSched }

/-- The date loop (lines 243-445): run through the seven dates of
[start, week_end] while the accumulated weekly hours stay below the cap,
skipping weekend dates (`weekday ≥ 5`; `wd` of date `t` is
`(startWd + (t - start)) % 7` where `startWd` is the weekday of the start
date).  `fuel` is initialised to 7, the number of dates in the window. -/
def v4aWeekLoop (dist : Dist) (home : Loc) (maxDaily : ℚ) (assigned : List ℤ)
    (allowFiller : Bool) (maxDriveMinutes : ℚ) (preNightCap : ℕ)
    (fixed_by_date : List (ℤ × List ℤ)) (job_pool : List VJob)
    (start week_end startWd : ℤ) (weeklyCap : ℚ) :
    ℕ → ℤ → WeekSt → WeekSt
  | 0, _, ws => ws
  | n + 1, dte, ws =>
    if dte ≤ week_end ∧ ws.totalWeek < weeklyCap then
      let wd := (startWd + (dte - start)) % 7
      if 5 ≤ wd then
        v4aWeekLoop dist home maxDaily assigned allowFiller maxDriveMinutes preNightCap
          fixed_by_date job_pool start week_end startWd weeklyCap n (dte + 1) ws
      else
        let ws2 := v4aDay dist home maxDaily assigned allowFiller maxDriveMinutes
          preNightCap fixed_by_date job_pool dte week_end wd ws
        v4aWeekLoop dist home maxDaily assigned allowFiller maxDriveMinutes preNightCap
          fixed_by_date job_pool start week_end startWd weeklyCap n (dte + 1) ws2
    else ws

/-- A week-state pool removal (used by the outside-week fixed-job pass,
which calls `remove_from_pools` through the closure). -/
def removePoolsW (wo : ℤ) (ws : WeekSt) : WeekSt :=
  { ws with in_scope := ws.in_scope.filter (fun j => j.work_order ≠ wo),
            anchor_pool := ws.anchor_pool.filter (fun j => j.work_order ≠ wo),
            filler_pool := ws.filler_pool.filter (fun j => j.work_order ≠ wo) }

/-- One out-of-window fixed date (lines 448-475): place the pinned work
orders in order starting from home, appending a day whose total is the sum
of the entries' total times.  The weekly hour accumulator is not touched. -/
def outsideDay (dist : Dist) (home : Loc) (job_pool : List VJob) (d : ℤ)
    (wos : List ℤ) (ws : WeekSt) : WeekSt :=
  let step := wos.foldl (fun (acc : List SchedEntry × Loc × WeekSt) wo =>
      match (job_pool.filter (fun j => j.work_order = wo)).head? with
      | none => acc
      | some r =>
        let travel := get_travel_time dist acc.2.1 r.loc
        let total := travel + r.duration
        let e : SchedEntry := ⟨r.work_order, travel, r.duration, total, r.night_test⟩
        (acc.1 ++ [e], r.loc, removePoolsW r.work_order acc.2.2))
    ([], home, ws)
  if step.1 ≠ [] then
    { step.2.2 with schedule := step.2.2.schedule ++
        [⟨d, step.1, (step.1.map (·.total_time)).sum⟩] }
  else step.2.2

/-- `schedule_technician_week` (lines 51-478), from the point where the
weekly working set `in_scope_all` has been assembled (the pool preparation
of lines 89-145 filters and orders rows fetched from the external store; the
prepared, ordered working set is taken as input here).  The anchor/filler
split of lines 148-153, the day loop, the out-of-window fixed-job pass and
the final stable sort by date are modelled. -/
def schedule_technician_week (dist : Dist) (home : Loc) (maxDaily maxWeekly : ℚ)
    (in_scope_all : List VJob) (target_sow_list : List String) (assigned : List ℤ)
    (allowFiller : Bool) (maxDriveMinutes : ℚ) (preNightCap : ℕ)
    (fixed_by_date : List (ℤ × List ℤ)) (job_pool : List VJob)
    (start startWd : ℤ) (weekly_target_hours_max : ℚ) : WeekSt :=
  let week_end := start + 6
  let anchor_pool := if target_sow_list ≠ [] then
      in_scope_all.filter (fun j => decide (j.sow_1 ∈ target_sow_list)) else []
  let filler_pool := if target_sow_list ≠ [] then
      in_scope_all.filter (fun j => decide (j.sow_1 ∉ target_sow_list)) else in_scope_all
  let weeklyCap := min maxWeekly weekly_target_hours_max
  let ws0 : WeekSt :=
    { in_scope := in_scope_all, anchor_pool := anchor_pool, filler_pool := filler_pool,
      cur := home, zone := none, totalWeek := 0, recovery := false, schedule := [] }
  let ws1 := v4aWeekLoop dist home maxDaily assigned allowFiller maxDriveMinutes
    preNightCap fixed_by_date job_pool start week_end startWd weeklyCap 7 start ws0
  let ws2 := fixed_by_date.foldl (fun ws p =>
      if p.1 < start ∨ week_end < p.1 then outsideDay dist home job_pool p.1 p.2 ws
      else ws) ws1
  { ws2 with schedule := ws2.schedule.mergeSort (fun a b => a.date ≤ b.date) }

/-- The invariant threaded through one V4a day: the accumulated daily hours
stay within the day's cap, and the weekly accumulator equals its value at
day start plus the daily hours (every code path adds the same amount to
both). -/
def DayInv (max_hours t0 : ℚ) (st : DaySt) : Prop :=
  st.daily ≤ max_hours ∧ st.totalWeek = t0 + st.daily

end V4a

/- ===================================================================
   Concrete instances used by the claim theorems
   =================================================================== -/

/-- Manhattan metric on coordinates: a fully computable stand-in distance
oracle for concrete runs (any metric realises the abstract `haversine`
interface of the route logic). -/
def mdist : Dist := fun a b => |a.1 - b.1| + |a.2 - b.2|

/-- The everywhere-zero distance oracle (all sites co-located). -/
def zdist : Dist := fun _ _ => 0

/-- Region A of the spec's scoring scenario: 2 priority jobs, no recurring,
no hotel, 10 miles from home, 5 jobs, average days-until-due 20. -/
def regionA : Region := ⟨0, 2, 0, false, 0, 5, 10, some 20⟩

/-- Region B of the spec's scoring scenario: no priority, 3 recurring, hotel
required with 10 work hours, 40 miles from home, 4 jobs, average
days-until-due 5. -/
def regionB : Region := ⟨1, 0, 3, true, 10, 4, 40, some 5⟩

/-- A region whose average days-until-due is zero (and everything else
empty). -/
def regionZeroAvg : Region := ⟨2, 0, 0, false, 0, 0, 0, some 0⟩

/-- A job 55 miles from home taking 8 hours (C1 scenario). -/
def c1job : Job := ⟨1, (55, 0), 8⟩

/-- A near job whose duration cannot fit a 10-hour day. -/
def c3near : Job := ⟨1, (10, 0), 100⟩

/-- A farther job that easily fits a 10-hour day. -/
def c3far : Job := ⟨2, (30, 0), 1⟩

/-- A small job used to witness the route-builder step lemma. -/
def c3small : Job := ⟨3, (0, 0), 2⟩

/-- A job 200 miles out (hotel-stay witness). -/
def c4far : Job := ⟨1, (200, 0), 1⟩

/-- Five co-located 11-hour jobs: each fills one 11-hour day. -/
def c9jobs : List Job := (List.range 5).map (fun i => ⟨(i : ℤ), (0, 0), 11⟩)

/-- The technician of the C9 scenario: defaults of the source
(max_daily_hours 14, max_weekly_hours 50). -/
def c9tech : Technician := ⟨(0, 0), 14, 50⟩

/-- Corridor-scenario job 1: at the start location, 3 hours of work. -/
def cjob1 : CJob := ⟨1, (0, 0), 3⟩

/-- Corridor-scenario job 2: co-located with job 1, 3 hours of work. -/
def cjob2 : CJob := ⟨2, (0, 0), 3⟩

/-- The night job of the C8 scenario: 2 hours, at the technician's home. -/
def c8night : V4a.VJob := ⟨7, "S", (0, 7), 2, "X", true, false, 5, 3, false, 1, 0⟩

/-- Week state with `c8night` in scope and in the filler pool. -/
def c8week : V4a.WeekSt := ⟨[c8night], [], [c8night], (0, 7), none, 0, false, []⟩

/-- The night job of the C7 scenario: 8 hours, at the technician's home. -/
def c7night : V4a.VJob := ⟨7, "S", (0, 7), 8, "X", true, false, 5, 3, false, 1, 0⟩

/-- Week state with `c7night` in scope and in the filler pool. -/
def c7week : V4a.WeekSt := ⟨[c7night], [], [c7night], (0, 7), none, 0, false, []⟩

/-- A recurring job due on Friday of the week, 100 miles from home (C4
counterexample input). -/
def c4friday : V4a.VJob := ⟨9, "S", (100, 7), 3, "X", false, true, 4, 0, false, 1, 0⟩

/-- The week state produced by the C4 counterexample run: the Friday day
holds the far job with no drive home charged, and the technician is left at
the job site 100 miles from home. -/
def c4weekFinal : V4a.WeekSt :=
  ⟨[], [], [], ((100 : ℚ), (7 : ℚ)), some 0, 5, false, [⟨4, [⟨9, 2, 3, 5, false⟩], 5⟩]⟩

/- ===================================================================
   Shared helper lemmas
   =================================================================== -/

/-- A predicate preserved by every step of a left fold holds of the result. -/
theorem foldl_invariant {α β : Type} (P : α → Prop) (f : α → β → α)
    (h : ∀ a b, P a → P (f a b)) : ∀ (l : List β) (a : α), P a → P (l.foldl f a) := by
  intro l
  induction l with
  | nil => intro a ha; exact ha
  | cons b t ih => intro a ha; exact ih (f a b) (h a b ha)

/-- In a list sorted by a transitive comparison, the first element found by
`find?` dominates every other element satisfying the predicate. -/
theorem find?_pairwise_dom {α : Type} {le : α → α → Bool} {p : α → Bool}
    {l : List α} {c : α} (hs : List.Pairwise (fun a b => le a b = true) l)
    (hf : l.find? p = some c) :
    ∀ x ∈ l, p x = true → le c x = true ∨ x = c := by
  induction l with
  | nil => simp at hf
  | cons a t ih =>
    rcases List.pairwise_cons.mp hs with ⟨ha, ht⟩
    by_cases hpa : p a
    · rw [List.find?_cons_of_pos _ hpa] at hf
      cases hf
      intro x hx _
      rcases List.mem_cons.mp hx with h | h
      · exact Or.inr h
      · exact Or.inl (ha x h)
    · rw [List.find?_cons_of_neg _ hpa] at hf
      intro x hx hpx
      rcases List.mem_cons.mp hx with h | h
      · subst h; exact absurd hpx hpa
      · exact ih ht hf x h hpx

/- ===================================================================
   Claim theorems
   =================================================================== -/

/-- C2 (counterexample): the claim says the urgency bonus is added exactly
when the average days-until-due is less than 14, but on a region whose
average is 0 the code's truthiness guard drops the bonus: the code computes
0 where the claimed formula gives 30. -/
theorem C2_counterexample :
    regionScore regionZeroAvg = 0 ∧ specRegionScore regionZeroAvg = 30 ∧
      regionScore regionZeroAvg ≠ specRegionScore regionZeroAvg := by
  refine ⟨?_, ?_, ?_⟩ <;> norm_num [regionScore, specRegionScore, regionZeroAvg]

/-- C2 (amended): the score agrees with the claimed additive formula for
every region whose average days-until-due is present and nonzero (for a null
or zero average the urgency bonus is dropped); on the spec's concrete
scenario the stored scores are 205 and −19 and Region A is selected. -/
theorem C2_region_scoring :
    (∀ (r : Region) (v : ℚ), r.avg_days_til_due = some v → v ≠ 0 →
        regionScore r = specRegionScore r) ∧
      regionScoreStored regionA = 205 ∧ regionScoreStored regionB = -19 ∧
      pickRegion [regionA, regionB] = some regionA := by
  refine ⟨?_, ?_, ?_, ?_⟩
  · intro r v hv hnz
    simp only [regionScore, specRegionScore, hv, hnz, ne_eq, not_false_eq_true, true_and]
    split_ifs <;> ring
  · norm_num [regionScoreStored, round2, roundHalfEven, regionScore, regionA]
  · norm_num [regionScoreStored, round2, roundHalfEven, regionScore, regionB]
  · norm_num [pickRegion, List.argmax, List.argAux, regionScoreStored, round2,
      roundHalfEven, regionScore, regionA, regionB]

/-- C2 witness: the amended formula equality instantiated at Region B of the
scenario (average days-until-due 5, a nonzero value below 14). -/
theorem C2_region_scoring_witness : regionScore regionB = specRegionScore regionB :=
  C2_region_scoring.1 regionB 5 rfl (by norm_num)

/-- C5 (confirmed): simulated-annealing non-regression — for every distance
oracle, initial route, start location, budget and random-draw sequence, the
returned best route's total distance is at most the initial route's. -/
theorem C5_sa_non_regression (dist : Dist) (initial : List SmartRouter.OptJob)
    (start : Loc) (maxHours : ℚ) (rands : List SmartRouter.SaRand) :
    SmartRouter.routeMiles dist
        (SmartRouter.simulated_annealing dist initial start maxHours rands) start
      ≤ SmartRouter.routeMiles dist initial start := by
  have key : ∀ (st : List SmartRouter.OptJob × List SmartRouter.OptJob)
      (r : SmartRouter.SaRand),
      SmartRouter.routeMiles dist st.2 start ≤ SmartRouter.routeMiles dist initial start →
      SmartRouter.routeMiles dist (SmartRouter.saStep dist start maxHours st r).2 start
        ≤ SmartRouter.routeMiles dist initial start := by
    rintro ⟨cur, best⟩ r hb
    unfold SmartRouter.saStep
    dsimp only
    split_ifs with h0 h1 h2 h3 <;>
      first
        | exact hb
        | exact le_trans (le_of_lt h3) hb
  have main := foldl_invariant (fun st =>
      SmartRouter.routeMiles dist st.2 start ≤ SmartRouter.routeMiles dist initial start)
    (SmartRouter.saStep dist start maxHours) key rands (initial, initial) le_rfl
  exact main

set_option maxHeartbeats 1600000 in
/-- C6 (confirmed): a candidate swap whose resulting route would exceed the
daily time budget is never accepted — the annealing state is returned
unchanged, whatever the probabilistic draw — and consequently, whenever the
initial route is within the budget, the returned best route is too. -/
theorem C6_sa_budget :
    (∀ (dist : Dist) (start : Loc) (maxHours : ℚ)
        (cur best : List SmartRouter.OptJob) (r : SmartRouter.SaRand),
        ¬ SmartRouter.routeHours dist (SmartRouter.swapPositions cur r.i r.j) start
            ≤ maxHours →
        SmartRouter.saStep dist start maxHours (cur, best) r = (cur, best)) ∧
    (∀ (dist : Dist) (start : Loc) (maxHours : ℚ) (initial : List SmartRouter.OptJob)
        (rands : List SmartRouter.SaRand),
        SmartRouter.routeHours dist initial start ≤ maxHours →
        SmartRouter.routeHours dist
            (SmartRouter.simulated_annealing dist initial start maxHours rands) start
          ≤ maxHours) := by
  constructor
  · intro dist start maxHours cur best r hover
    unfold SmartRouter.saStep
    dsimp only
    split_ifs <;> rfl
  · intro dist start maxHours initial rands hinit
    have key : ∀ (st : List SmartRouter.OptJob × List SmartRouter.OptJob)
        (r : SmartRouter.SaRand),
        (SmartRouter.routeHours dist st.1 start ≤ maxHours ∧
          SmartRouter.routeHours dist st.2 start ≤ maxHours) →
        (SmartRouter.routeHours dist (SmartRouter.saStep dist start maxHours st r).1 start
            ≤ maxHours ∧
          SmartRouter.routeHours dist (SmartRouter.saStep dist start maxHours st r).2 start
            ≤ maxHours) := by
      rintro ⟨cur, best⟩ r ⟨hc, hbst⟩
      unfold SmartRouter.saStep
      dsimp only
      split_ifs with h0 h1 h2 h3
      · exact ⟨hc, hbst⟩
      · exact ⟨h1, h1⟩
      · exact ⟨h1, hbst⟩
      · exact ⟨hc, hbst⟩
      · exact ⟨hc, hbst⟩
    have main := foldl_invariant (fun st =>
        SmartRouter.routeHours dist st.1 start ≤ maxHours ∧
          SmartRouter.routeHours dist st.2 start ≤ maxHours)
      (SmartRouter.saStep dist start maxHours) key rands (initial, initial)
      ⟨hinit, hinit⟩
    exact main.2

/-- C6 witness: the budget-preservation consequence applied to the empty
route under a 10-hour budget. -/
theorem C6_sa_budget_witness :
    SmartRouter.routeHours zdist
        (SmartRouter.simulated_annealing zdist [] (0, 0) 10 []) (0, 0) ≤ 10 :=
  C6_sa_budget.2 zdist (0, 0) 10 [] []
    (by norm_num [SmartRouter.routeHours, SmartRouter.calculate_route_cost])

/-- C1 (counterexample): technician with a 10-hour effective cap, one 8-hour
job 55 miles from home.  The admission check passes (1 h travel + 8 h work
≤ 10), but the emitted Monday schedule charges the home-to-first-job hour a
second time and then the drive home, recording an 11-hour day — above the
10-hour effective daily cap, contradicting the claimed capacity invariant. -/
theorem C1_counterexample :
    (v5Day mdist (0, 0) [c1job] (0, 0) 10 0).stored_total = 11 ∧
      ¬ (v5Day mdist (0, 0) [c1job] (0, 0) 10 0).stored_total ≤ 10 := by
  have h : (v5Day mdist (0, 0) [c1job] (0, 0) 10 0).stored_total = 11 := by
    norm_num [v5Day, DayResult.stored_total, build_daily_route, buildLoop, mdist, c1job,
      List.argmin, List.argAux, calculate_drive_time, round2, roundHalfEven]
  refine ⟨h, ?_⟩
  rw [h]; norm_num

/-- C1 (amended): the admission check does keep the hours accumulated during
route construction within the effective cap: for every distance oracle, job
pool, start location and caps, the work plus in-route drive returned by
build_daily_route is at most max_daily_hours.  (The recorded day total can
still exceed the cap, because the drive home and — on days starting from
home — a second copy of the home-to-first-job leg are added afterwards
without any check, and schedule_week_geographic has no recovery-day
halving.) -/
theorem C1_route_capacity (dist : Dist) (jobs : List Job) (start : Loc)
    (maxDaily maxWork : ℚ) (h : 0 ≤ maxDaily) :
    (build_daily_route dist jobs start maxDaily maxWork).2.1
      + (build_daily_route dist jobs start maxDaily maxWork).2.2.1 ≤ maxDaily := by
  have key : ∀ (n : ℕ) (remaining : List Job) (cur : Loc) (work drive : ℚ),
      work + drive ≤ maxDaily →
      (buildLoop dist maxDaily maxWork n remaining cur work drive).2.1
        + (buildLoop dist maxDaily maxWork n remaining cur work drive).2.2.1 ≤ maxDaily := by
    intro n
    induction n with
    | zero => intro remaining cur work drive h0; simpa [buildLoop] using h0
    | succ n ih =>
      intro remaining cur work drive h0
      simp only [buildLoop]
      split_ifs with hw
      · cases hm : remaining.argmin (fun j => dist cur j.loc) with
        | none => simpa using h0
        | some nearest =>
          dsimp only
          split_ifs with hfit
          · exact ih _ _ _ _ (by linarith)
          · simpa using h0
      · simpa using h0
  simpa [build_daily_route] using key jobs.length jobs start 0 0 (by simpa using h)

/-- C1 witness: the in-route capacity bound at a concrete pool and caps. -/
theorem C1_route_capacity_witness :
    (build_daily_route mdist [c1job] (0, 0) 10 (21/2)).2.1
      + (build_daily_route mdist [c1job] (0, 0) 10 (21/2)).2.2.1 ≤ 10 :=
  C1_route_capacity mdist [c1job] (0, 0) 10 (21/2) (by norm_num)

/-- C3 (counterexample): with a 100-hour job 10 miles out and a 1-hour job
30 miles out under a 10-hour budget, the nearest job does not fit, and the
builder terminates with an empty route even though the farther job fits the
budget — refuting "if any remaining job fits then the builder schedules
one". -/
theorem C3_counterexample :
    (build_daily_route mdist [c3near, c3far] (0, 0) 10 (21/2)).1 = [] ∧
      calculate_drive_time (mdist (0, 0) c3far.loc) + c3far.duration + 0 ≤ 10 := by
  constructor
  · norm_num [build_daily_route, buildLoop, mdist, c3near, c3far, List.argmin,
      List.argAux, calculate_drive_time]
  · norm_num [calculate_drive_time, mdist, c3far]

/-- C3 (amended): at each step the builder picks the nearest remaining job
outright and schedules it only if it fits; when that nearest job does not
fit, the builder stops at once even if a farther job would fit (and
build_daily_route additionally stops once accumulated work reaches
max_work_hours). -/
theorem C3_nearest_step (dist : Dist) (pool : List Job) (start : Loc)
    (maxDaily maxWork : ℚ) (nearest : Job) (hw : 0 < maxWork)
    (hm : pool.argmin (fun j => dist start j.loc) = some nearest) :
    (calculate_drive_time (dist start nearest.loc) + nearest.duration ≤ maxDaily →
      (build_daily_route dist pool start maxDaily maxWork).1.head? = some nearest) ∧
    (¬ calculate_drive_time (dist start nearest.loc) + nearest.duration ≤ maxDaily →
      (build_daily_route dist pool start maxDaily maxWork).1 = []) := by
  have hpool : pool ≠ [] := by
    intro hnil
    rw [hnil, List.argmin_nil] at hm
    exact Option.noConfusion hm
  obtain ⟨k, hk⟩ : ∃ k, pool.length = k + 1 := by
    cases hp : pool with
    | nil => exact absurd hp hpool
    | cons a t => exact ⟨t.length, by simp [hp]⟩
  unfold build_daily_route
  rw [hk]
  constructor <;> intro hfit <;> simp only [buildLoop, hm] <;> rw [if_pos hw]
  · rw [if_pos (by simpa using hfit)]
    simp
  · rw [if_neg (by simpa using hfit)]

/-- C3 witness: the step characterisation applied to a singleton pool whose
only job fits — the builder schedules it first. -/
theorem C3_nearest_step_witness :
    (build_daily_route mdist [c3small] (0, 0) 10 (21/2)).1.head? = some c3small :=
  (C3_nearest_step mdist [c3small] (0, 0) 10 (21/2) c3small (by norm_num)
      (by norm_num [List.argmin, List.argAux])).1
    (by norm_num [calculate_drive_time, mdist, c3small])

/-- C4 (amended): in schedule_week_geographic the hotel rule is exactly as
claimed — on a non-final weekday a hotel stay is chosen iff the distance
from the day's last location to home exceeds 90 miles; a hotel charges no
drive home and the next day starts at the last location; otherwise the drive
home is charged and the next day starts from home; Friday never yields a
hotel and always charges the drive home.  (scheduler_V4a instead stays away
above an 85-mile threshold, forces the return only on the last date of its
7-day window — which is never Friday for a Monday start — and charges the
return only when it fits the remaining daily cap; see the
counterexample.) -/
theorem C4_hotel_rule (dist : Dist) (home : Loc) (remaining : List Job)
    (cur : Loc) (adjusted : ℚ) (dayIdx : ℕ) :
    ((v5Day dist home remaining cur adjusted dayIdx).hotel = true ↔
      (dayIdx ≠ 4 ∧
        90 < dist (v5Day dist home remaining cur adjusted dayIdx).end_location home)) ∧
    ((v5Day dist home remaining cur adjusted dayIdx).hotel = true →
      (v5Day dist home remaining cur adjusted dayIdx).total_drive
          = (v5Day dist home remaining cur adjusted dayIdx).route_drive ∧
        (v5Day dist home remaining cur adjusted dayIdx).next_location
          = (v5Day dist home remaining cur adjusted dayIdx).end_location) ∧
    ((v5Day dist home remaining cur adjusted dayIdx).hotel = false →
      (v5Day dist home remaining cur adjusted dayIdx).total_drive
          = (v5Day dist home remaining cur adjusted dayIdx).route_drive
            + calculate_drive_time
                (dist (v5Day dist home remaining cur adjusted dayIdx).end_location home) ∧
        (v5Day dist home remaining cur adjusted dayIdx).next_location = home) ∧
    (dayIdx = 4 → (v5Day dist home remaining cur adjusted dayIdx).hotel = false) := by
  unfold v5Day
  by_cases h4 : dayIdx = 4 <;>
    by_cases h90 : 90 < dist (build_daily_route dist remaining cur adjusted).2.2.2 home <;>
    simp [h4, h90]

/-- C4 witness: with one job 200 miles out on a non-final weekday the hotel
branch applies, so the next day starts at that job's location. -/
theorem C4_hotel_rule_witness :
    (v5Day mdist (0, 0) [c4far] (0, 0) 14 1).next_location
      = (v5Day mdist (0, 0) [c4far] (0, 0) 14 1).end_location := by
  have hh : (v5Day mdist (0, 0) [c4far] (0, 0) 14 1).hotel = true := by
    norm_num [v5Day, build_daily_route, buildLoop, mdist, c4far, List.argmin, List.argAux,
      calculate_drive_time]
  exact ((C4_hotel_rule mdist (0, 0) [c4far] (0, 0) 14 1).2.1 hh).2

set_option maxHeartbeats 3200000 in
/-- C4 (counterexample): run schedule_technician_week for a Monday-start
week (start day 0, weekday 0; window end day 6) whose only work is a
recurring job due Friday (day 4) 100 miles from home.  On Friday the
distance home is 100 miles — above the code's 85-mile guard — and Friday is
not the end of the 7-day window, so NO drive home is scheduled: the produced
Friday entry totals 5 hours (2 h drive out + 3 h work) and the week ends
with the technician still at the job site, contradicting "on the week's
final weekday (Friday) a drive home is always scheduled regardless of
distance" (the code also compares against 85 miles, not the claimed 90). -/
theorem C4_counterexample :
    ((V4a.schedule_technician_week mdist (0, 7) 14 50 [c4friday] [] [] true 60 4 [] []
        0 0 50).schedule = [⟨4, [⟨9, 2, 3, 5, false⟩], 5⟩]) ∧
    (V4a.schedule_technician_week mdist (0, 7) 14 50 [c4friday] [] [] true 60 4 [] []
        0 0 50).cur = ((100 : ℚ), (7 : ℚ)) ∧
    mdist ((100 : ℚ), (7 : ℚ)) (0, 7) = 100 := by
  have hd : ∀ (d wd : ℤ) (ws : V4a.WeekSt),
      (d = 0 ∧ wd = 0 ∨ d = 1 ∧ wd = 1 ∨ d = 2 ∧ wd = 2 ∨ d = 3 ∧ wd = 3) →
      ws.in_scope = [c4friday] →
      ws.anchor_pool = [] → ws.filler_pool = [c4friday] → ws.recovery = false →
      V4a.v4aDay mdist (0, 7) 14 [] true 60 4 [] [] d 6 wd ws = ws := by
    rintro d wd ⟨i, a, f, cur, zone, tw, rec, sch⟩
      (⟨rfl, rfl⟩ | ⟨rfl, rfl⟩ | ⟨rfl, rfl⟩ | ⟨rfl, rfl⟩) h1 h2 h3 h4 <;>
    simp only at h1 h2 h3 h4 <;>
    subst h1 h2 h3 h4 <;>
    cases zone <;>
    norm_num [V4a.v4aDay, c4friday, mdist, V4a.filter_for_date, V4a.anchorLoop,
      V4a.fillerPhase, V4a.fillerLoop, V4a.fillerStepCands, V4a.add_travel_and_capacity,
      V4a.get_travel_time, V4a.pick_next, V4a.candKey, V4a.scheduleCand,
      V4a.remove_from_pools, V4a.nightPhase, V4a.driveHomePhase, V4a.fridayBlocked,
      V4a.strContains, List.argmin, List.argAux]
  have h4 : ∀ ws : V4a.WeekSt, ws.in_scope = [c4friday] → ws.anchor_pool = [] →
      ws.filler_pool = [c4friday] → ws.cur = ((0 : ℚ), (7 : ℚ)) → ws.zone = none →
      ws.totalWeek = 0 → ws.recovery = false → ws.schedule = [] →
      V4a.v4aDay mdist (0, 7) 14 [] true 60 4 [] [] 4 6 4 ws = c4weekFinal := by
    rintro ⟨i, a, f, cur, zone, tw, rec, sch⟩ h1 h2 h3 h5 h6 h7 h8 h9
    simp only at h1 h2 h3 h5 h6 h7 h8 h9
    subst h1 h2 h3 h5 h6 h7 h8 h9
    have hS : V4a.fridayBlocked "S" = false := by decide
    norm_num [V4a.v4aDay, c4weekFinal, c4friday, mdist, V4a.filter_for_date,
      V4a.anchorLoop, V4a.fillerPhase, V4a.fillerLoop, V4a.fillerStepCands,
      V4a.add_travel_and_capacity, V4a.get_travel_time, V4a.pick_next, V4a.candKey,
      V4a.scheduleCand, V4a.remove_from_pools, V4a.nightPhase, V4a.driveHomePhase, hS,
      List.argmin, List.argAux, List.cons_ne_nil]
  refine ⟨?_, ?_, by norm_num [mdist]⟩ <;>
  norm_num [V4a.schedule_technician_week, V4a.v4aWeekLoop, hd, h4, c4weekFinal,
    List.mergeSort_nil, List.mergeSort_singleton, V4a.outsideDay, V4a.removePoolsW]

/-- C7 (failing input): one 8-hour night-tagged job at the technician's home
with a 14-hour daily cap.  The in-day filler schedules it (the filler has no
night exclusion); the end-of-day night phase then finds no capacity for a
second placement, so `recovery_day_next` is never set: the produced day's
only entry is a night job, yet the following day is NOT marked a recovery
day, so its cap stays at the full max_daily_hours instead of half. -/
theorem C7_failing :
    (V4a.v4aDay mdist (0, 7) 14 [] true 60 4 [] [] 0 6 0 c7week).schedule
        = [⟨0, [⟨7, 0, 8, 8, true⟩], 8⟩] ∧
      (V4a.v4aDay mdist (0, 7) 14 [] true 60 4 [] [] 0 6 0 c7week).recovery = false := by
  constructor <;>
  norm_num [V4a.v4aDay, c7week, c7night, mdist, V4a.filter_for_date, V4a.anchorLoop,
    V4a.fillerPhase, V4a.fillerLoop, V4a.fillerStepCands, V4a.add_travel_and_capacity,
    V4a.get_travel_time, V4a.pick_next, V4a.candKey, V4a.scheduleCand,
    V4a.remove_from_pools, V4a.nightPhase, V4a.driveHomePhase, V4a.fridayBlocked,
    V4a.strContains, List.argmin, List.argAux, List.cons_ne_nil]

/-- C8 (failing input): one 2-hour night-tagged job at the technician's
home.  The filler phase schedules it and removes it from the pools, but the
end-of-day night phase re-selects it from the day-start snapshot
`night_today_all`, which `remove_from_pools` never updates: work order 7 is
scheduled TWICE in the same day. -/
theorem C8_failing :
    ((V4a.v4aDay mdist (0, 7) 14 [] true 60 4 [] [] 0 6 0 c8week).schedule.map
      (fun d => d.jobs.map (fun e => e.work_order))) = [[7, 7]] := by
  norm_num [V4a.v4aDay, c8week, c8night, mdist, V4a.filter_for_date, V4a.anchorLoop,
    V4a.fillerPhase, V4a.fillerLoop, V4a.fillerStepCands, V4a.add_travel_and_capacity,
    V4a.get_travel_time, V4a.pick_next, V4a.candKey, V4a.scheduleCand,
    V4a.remove_from_pools, V4a.nightPhase, V4a.driveHomePhase, V4a.fridayBlocked,
    V4a.strContains, List.argmin, List.argAux, List.cons_ne_nil]

/-- C9 (counterexample): five co-located 11-hour jobs under the source's
default caps (max_daily_hours 14, max_weekly_hours 50).
schedule_week_geographic schedules one job per day — 11 hours each — and
accumulates 55 weekly hours, exceeding the technician's 50-hour weekly cap:
the geographic week builder never consults max_weekly_hours. -/
theorem C9_counterexample :
    (schedule_week_geographic mdist c9tech c9jobs (fun _ => none)).total = 55 ∧
      ¬ (schedule_week_geographic mdist c9tech c9jobs (fun _ => none)).total
          ≤ c9tech.max_weekly_hours := by
  have h : (schedule_week_geographic mdist c9tech c9jobs (fun _ => none)).total = 55 := by
    norm_num [schedule_week_geographic, v5WeekStep, v5Day, build_daily_route, buildLoop,
      mdist, c9tech, c9jobs, List.argmin, List.argAux, calculate_drive_time,
      List.range_succ]
  refine ⟨h, ?_⟩
  rw [h]; norm_num [c9tech]

set_option maxHeartbeats 800000 in
/-- C10 (confirmed): in the corridor gap-fill decision, when no cluster fits
together with the destination's travel and work time and the destination is
bumpable, the result reports bump_destination = true and schedules a cluster
that fits alone with maximal work hours among those that fit (provided some
cluster fits alone — otherwise the code falls through to the packing
branch); when the destination cannot be bumped it reports
bump_destination = false and greedily packs individual corridor jobs
nearest-first around the fixed destination so that the destination still
fits.  On the spec's concrete scenario (6-hour cluster, 3-hour destination
reservation, 8 available hours, bumpable destination) the result is
bump_destination = true with the standalone cluster. -/
theorem C10_corridor :
    (∀ (dist : Dist) (corridor : List CJob) (start endL : Loc)
        (avail ttd destDur : ℚ),
      corridor ≠ [] →
      (∀ c ∈ rankedClusters dist start corridor,
          ¬ clusterWithDestTime dist start endL destDur c ≤ avail) →
      (∃ c ∈ rankedClusters dist start corridor,
          clusterAloneTime dist start c ≤ avail) →
      (schedule_corridor_jobs dist corridor start endL avail ttd destDur
            true).bump_destination = true ∧
        (schedule_corridor_jobs dist corridor start endL avail ttd destDur
            true).jobs_to_schedule ∈ rankedClusters dist start corridor ∧
        clusterAloneTime dist start
            (schedule_corridor_jobs dist corridor start endL avail ttd destDur
              true).jobs_to_schedule ≤ avail ∧
        (∀ c ∈ rankedClusters dist start corridor,
            clusterAloneTime dist start c ≤ avail →
            clusterWork c ≤ clusterWork
              (schedule_corridor_jobs dist corridor start endL avail ttd destDur
                true).jobs_to_schedule)) ∧
    (∀ (dist : Dist) (corridor : List CJob) (start endL : Loc)
        (avail ttd destDur : ℚ),
      corridor ≠ [] →
      (∀ c ∈ rankedClusters dist start corridor,
          ¬ clusterWithDestTime dist start endL destDur c ≤ avail) →
      schedule_corridor_jobs dist corridor start endL avail ttd destDur false
        = ⟨packAroundDest dist endL avail destDur (corridorSort dist start corridor)
            [] 0 start, false⟩) ∧
    schedule_corridor_jobs mdist [cjob1, cjob2] (0, 0) (55, 0) 8 1 2 true
      = ⟨[cjob1, cjob2], true⟩ := by
  refine ⟨?_, ?_, ?_⟩
  · intro dist corridor start endL avail ttd destDur hne hnofit hex
    have hn1 : List.find?
        (fun c => decide (clusterWithDestTime dist start endL destDur c ≤ avail))
        (rankedClusters dist start corridor) = none :=
      List.find?_eq_none.mpr (fun x hx => by simpa using hnofit x hx)
    obtain ⟨c2, hc2⟩ : ∃ c2, List.find?
        (fun c => decide (clusterAloneTime dist start c ≤ avail))
        (rankedClusters dist start corridor) = some c2 := by
      refine Option.isSome_iff_exists.mp (List.find?_isSome.mpr ?_)
      obtain ⟨c, hc, hcle⟩ := hex
      exact ⟨c, hc, by simpa using hcle⟩
    have hres : schedule_corridor_jobs dist corridor start endL avail ttd destDur true
        = ⟨c2, true⟩ := by
      simp only [schedule_corridor_jobs, if_neg hne, hn1, hc2]
      norm_num
    have hmem : c2 ∈ rankedClusters dist start corridor :=
      List.mem_of_find?_eq_some hc2
    have hgate : clusterAloneTime dist start c2 ≤ avail := by
      simpa using List.find?_some hc2
    have htrans : ∀ a b c : List CJob,
        (fun a b => decide (clusterWork b ≤ clusterWork a)) a b = true →
        (fun a b => decide (clusterWork b ≤ clusterWork a)) b c = true →
        (fun a b => decide (clusterWork b ≤ clusterWork a)) a c = true := by
      intro a b c hab hbc
      simp only [decide_eq_true_eq] at hab hbc ⊢
      exact le_trans hbc hab
    have htotal : ∀ a b : List CJob,
        ((fun a b => decide (clusterWork b ≤ clusterWork a)) a b
          || (fun a b => decide (clusterWork b ≤ clusterWork a)) b a) = true := by
      intro a b
      simp only [Bool.or_eq_true, decide_eq_true_eq]
      exact le_total (clusterWork b) (clusterWork a)
    have hsorted := @List.sorted_mergeSort (List CJob)
      (fun a b => decide (clusterWork b ≤ clusterWork a)) htrans htotal
      (buildClusters dist (corridorSort dist start corridor))
    have hmax : ∀ c ∈ rankedClusters dist start corridor,
        clusterAloneTime dist start c ≤ avail → clusterWork c ≤ clusterWork c2 := by
      intro c hc hcle
      have hd := find?_pairwise_dom hsorted hc2 c hc (by simpa using hcle)
      rcases hd with hle | heq
      · simpa using hle
      · rw [heq]
    rw [hres]
    exact ⟨rfl, hmem, hgate, hmax⟩
  · intro dist corridor start endL avail ttd destDur hne hnofit
    have hn1 : List.find?
        (fun c => decide (clusterWithDestTime dist start endL destDur c ≤ avail))
        (rankedClusters dist start corridor) = none :=
      List.find?_eq_none.mpr (fun x hx => by simpa using hnofit x hx)
    simp only [schedule_corridor_jobs, if_neg hne, hn1]
    norm_num
  · norm_num [schedule_corridor_jobs, rankedClusters, corridorSort, buildClusters,
      clusterStep, clusterWork, clusterDrive, clusterWithDestTime, clusterAloneTime,
      calculate_drive_time, packAroundDest, mdist, cjob1, cjob2, List.mergeSort,
      List.merge, List.cons_ne_nil]

/-- C10 witness: the bump branch applied to the concrete scenario input,
discharging each hypothesis there. -/
theorem C10_corridor_witness :
    (schedule_corridor_jobs mdist [cjob1, cjob2] (0, 0) (55, 0) 8 1 2
        true).bump_destination = true := by
  have hranked : rankedClusters mdist (0, 0) [cjob1, cjob2] = [[cjob1, cjob2]] := by
    norm_num [rankedClusters, corridorSort, buildClusters, clusterStep, clusterWork,
      mdist, cjob1, cjob2, List.mergeSort, List.merge, List.cons_ne_nil]
  refine (C10_corridor.1 mdist [cjob1, cjob2] (0, 0) (55, 0) 8 1 2
    (by simp) ?_ ?_).1
  · intro c hc
    rw [hranked] at hc
    simp only [List.mem_singleton] at hc
    subst hc
    norm_num [clusterWithDestTime, clusterWork, clusterDrive, calculate_drive_time,
      mdist, cjob1, cjob2]
  · refine ⟨[cjob1, cjob2], ?_, ?_⟩
    · rw [hranked]; simp
    · norm_num [clusterAloneTime, clusterWork, clusterDrive, calculate_drive_time,
        mdist, cjob1, cjob2]

theorem V4a.scheduleCand_daily (c : V4a.Cand) (st : V4a.DaySt) :
    (V4a.scheduleCand c st).daily = st.daily + c.total_time := rfl

theorem V4a.scheduleCand_totalWeek (c : V4a.Cand) (st : V4a.DaySt) :
    (V4a.scheduleCand c st).totalWeek = st.totalWeek + c.total_time := rfl

theorem V4a.atc_total_le {dist : Dist} {df : List V4a.VJob} {cur : Loc}
    {daily max_hours : ℚ} {wd : ℤ} {c : V4a.Cand}
    (h : c ∈ V4a.add_travel_and_capacity dist df cur daily max_hours wd) :
    c.total_time + daily ≤ max_hours := by
  simp only [V4a.add_travel_and_capacity] at h
  have h2 := (List.mem_filter.mp h).2
  simpa using h2

theorem V4a.pick_next_mem {l : List V4a.Cand} {c : V4a.Cand}
    (h : V4a.pick_next l = some c) : c ∈ l :=
  List.argmin_mem (Option.mem_def.mpr h)

theorem V4a.fillerStep_total_le {dist : Dist} {assigned : List ℤ}
    {maxDriveMinutes max_hours : ℚ} {wd d : ℤ} {st : V4a.DaySt} {c : V4a.Cand}
    (h : c ∈ V4a.fillerStepCands dist assigned maxDriveMinutes max_hours wd d st) :
    c.total_time + st.daily ≤ max_hours := by
  rcases hz : st.zone with _ | z <;>
    simp only [V4a.fillerStepCands, hz] at h <;>
    split_ifs at h with h1 h2 h3 <;>
    first
      | exact V4a.atc_total_le (List.mem_filter.mp h).1
      | exact V4a.atc_total_le h
      | simp at h

theorem V4a.anchorLoop_inv (dist : Dist) (max_hours : ℚ) (wd : ℤ)
    (nightPresent : Bool) (preNightCap : ℕ) :
    ∀ (n : ℕ) (anchor_today : List V4a.VJob) (st : V4a.DaySt) (t0 : ℚ),
      V4a.DayInv max_hours t0 st →
      V4a.DayInv max_hours t0
        (V4a.anchorLoop dist max_hours wd nightPresent preNightCap n anchor_today st) := by
  intro n
  induction n with
  | zero => intro a st t0 h; simpa [V4a.anchorLoop] using h
  | succ n ih =>
    intro a st t0 hinv
    simp only [V4a.anchorLoop]
    split_ifs with h1 h2 h3
    · exact hinv
    · exact hinv
    · cases hp : V4a.pick_next
          ((V4a.add_travel_and_capacity dist a st.cur st.daily max_hours wd).filter
            (fun c => !c.job.night_test)) with
      | none => simp only [hp]; exact hinv
      | some pick =>
        simp only [hp]
        have hmem := V4a.pick_next_mem hp
        have hgate := V4a.atc_total_le (List.mem_filter.mp hmem).1
        have hinv2 : V4a.DayInv max_hours t0 (V4a.scheduleCand pick st) := by
          constructor
          · rw [V4a.scheduleCand_daily]; linarith
          · rw [V4a.scheduleCand_totalWeek, V4a.scheduleCand_daily, hinv.2]; ring
        split_ifs with h4
        · exact ih _ _ _ ⟨hinv2.1, hinv2.2⟩
        · exact ih _ _ _ hinv2
    · exact hinv

theorem V4a.fillerLoop_inv (dist : Dist) (assigned : List ℤ)
    (maxDriveMinutes max_hours : ℚ) (wd d : ℤ) (nightPresent : Bool)
    (preNightCap : ℕ) :
    ∀ (n : ℕ) (step : List V4a.Cand) (st : V4a.DaySt) (t0 : ℚ),
      V4a.DayInv max_hours t0 st →
      (∀ c ∈ step, c.total_time + st.daily ≤ max_hours) →
      V4a.DayInv max_hours t0
        (V4a.fillerLoop dist assigned maxDriveMinutes max_hours wd d nightPresent
          preNightCap n step st) := by
  intro n
  induction n with
  | zero => intro step st t0 h _; simpa [V4a.fillerLoop] using h
  | succ n ih =>
    intro step st t0 hinv hstep
    simp only [V4a.fillerLoop]
    split_ifs with h1 h2
    · exact hinv
    · cases hp : V4a.pick_next step with
      | none => simp only [hp]; exact hinv
      | some pick =>
        simp only [hp]
        have hgate := hstep pick (V4a.pick_next_mem hp)
        have hinv2 : V4a.DayInv max_hours t0 (V4a.scheduleCand pick st) := by
          constructor
          · rw [V4a.scheduleCand_daily]; linarith
          · rw [V4a.scheduleCand_totalWeek, V4a.scheduleCand_daily, hinv.2]; ring
        split_ifs with h4
        · exact ih _ _ _ ⟨hinv2.1, hinv2.2⟩
            (fun c hc => V4a.fillerStep_total_le hc)
        · exact ih _ _ _ hinv2 (fun c hc => V4a.fillerStep_total_le hc)
    · exact hinv

theorem V4a.fillerPhase_inv (dist : Dist) (assigned : List ℤ)
    (maxDriveMinutes max_hours : ℚ) (wd d : ℤ) (nightPresent : Bool)
    (preNightCap : ℕ) (allowFiller : Bool) (st : V4a.DaySt) (t0 : ℚ)
    (hinv : V4a.DayInv max_hours t0 st) :
    V4a.DayInv max_hours t0
      (V4a.fillerPhase dist assigned maxDriveMinutes max_hours wd d nightPresent
        preNightCap allowFiller st) := by
  simp only [V4a.fillerPhase]
  split_ifs with h1 h2
  · exact hinv
  · exact V4a.fillerLoop_inv dist assigned maxDriveMinutes max_hours wd d nightPresent
      preNightCap st.filler_pool.length _ st t0 hinv
      (fun c hc => V4a.fillerStep_total_le hc)
  · exact hinv

theorem V4a.nightPhase_inv (dist : Dist) (max_hours : ℚ) (wd : ℤ)
    (nightSnapshot : List V4a.VJob) (st : V4a.DaySt) (t0 : ℚ)
    (hinv : V4a.DayInv max_hours t0 st) :
    V4a.DayInv max_hours t0 (V4a.nightPhase dist max_hours wd nightSnapshot [] st) := by
  simp only [V4a.nightPhase, List.head?_nil]
  split_ifs with h1 h2
  · cases hp : V4a.pick_next
        (V4a.add_travel_and_capacity dist nightSnapshot st.cur st.daily max_hours wd) with
    | none => simp only [hp]; exact hinv
    | some pick =>
      simp only [hp]
      have hgate := V4a.atc_total_le (V4a.pick_next_mem hp)
      constructor
      · show (V4a.scheduleCand pick st).daily ≤ max_hours
        rw [V4a.scheduleCand_daily]; linarith
      · show (V4a.scheduleCand pick st).totalWeek
            = t0 + (V4a.scheduleCand pick st).daily
        rw [V4a.scheduleCand_totalWeek, V4a.scheduleCand_daily, hinv.2]; ring
  · exact hinv
  · exact hinv

theorem V4a.driveHome_inv (dist : Dist) (home : Loc) (max_hours : ℚ)
    (d week_end : ℤ) (st : V4a.DaySt) (t0 : ℚ)
    (hinv : V4a.DayInv max_hours t0 st) :
    V4a.DayInv max_hours t0 (V4a.driveHomePhase dist home max_hours d week_end st) := by
  simp only [V4a.driveHomePhase]
  split_ifs with h1 h2 h3
  · constructor
    · exact h3
    · show st.totalWeek + dist st.cur home / 50
          = t0 + (st.daily + dist st.cur home / 50)
      rw [hinv.2]; ring
  · exact hinv
  · exact hinv
  · exact hinv

theorem V4a.v4aDay_totalWeek_le (dist : Dist) (home : Loc) (maxDaily : ℚ)
    (assigned : List ℤ) (allowFiller : Bool) (maxDriveMinutes : ℚ) (preNightCap : ℕ)
    (job_pool : List V4a.VJob) (d week_end wd : ℤ) (ws : V4a.WeekSt)
    (hD : 0 ≤ maxDaily) :
    (V4a.v4aDay dist home maxDaily assigned allowFiller maxDriveMinutes preNightCap
        [] job_pool d week_end wd ws).totalWeek ≤ ws.totalWeek + maxDaily := by
  have hmaxle : maxDaily * (if ws.recovery = true then (1 : ℚ)/2 else 1) ≤ maxDaily := by
    split_ifs <;> linarith
  simp only [V4a.v4aDay, List.filter_nil, List.map_nil, List.flatten_nil,
    List.filterMap_nil, List.foldl_nil]
  have inv0 : V4a.DayInv (maxDaily * if ws.recovery = true then (1 : ℚ)/2 else 1)
      ws.totalWeek
      { in_scope := ws.in_scope, anchor_pool := ws.anchor_pool,
        filler_pool := ws.filler_pool, cur := ws.cur, zone := ws.zone, daily := 0,
        totalWeek := ws.totalWeek, preNight := 0, entries := [],
        recoveryNext := false } := by
    refine ⟨?_, by simp [V4a.DayInv]⟩
    show (0 : ℚ) ≤ maxDaily * if ws.recovery = true then (1 : ℚ)/2 else 1
    split_ifs <;> linarith
  obtain ⟨hd5, ht5⟩ := V4a.driveHome_inv dist home _ d week_end _ ws.totalWeek
    (V4a.nightPhase_inv dist _ wd _ _ ws.totalWeek
      (V4a.fillerPhase_inv dist assigned maxDriveMinutes _ wd d _ preNightCap
        allowFiller _ ws.totalWeek
        (V4a.anchorLoop_inv dist _ wd _ preNightCap _ _ _ ws.totalWeek inv0)))
  rw [ht5]
  linarith

theorem V4a.v4aWeekLoop_totalWeek_le (dist : Dist) (home : Loc) (maxDaily : ℚ)
    (assigned : List ℤ) (allowFiller : Bool) (maxDriveMinutes : ℚ) (preNightCap : ℕ)
    (job_pool : List V4a.VJob) (start week_end startWd : ℤ) (weeklyCap : ℚ)
    (hD : 0 ≤ maxDaily) :
    ∀ (n : ℕ) (dte : ℤ) (ws : V4a.WeekSt),
      ws.totalWeek ≤ weeklyCap + maxDaily →
      (V4a.v4aWeekLoop dist home maxDaily assigned allowFiller maxDriveMinutes
          preNightCap [] job_pool start week_end startWd weeklyCap n dte
          ws).totalWeek
        ≤ weeklyCap + maxDaily := by
  intro n
  induction n with
  | zero => intro dte ws h; simpa [V4a.v4aWeekLoop] using h
  | succ n ih =>
    intro dte ws hws
    simp only [V4a.v4aWeekLoop]
    split_ifs with h1 h2
    · exact ih _ _ hws
    · refine ih _ _ ?_
      have hday := V4a.v4aDay_totalWeek_le dist home maxDaily assigned allowFiller
        maxDriveMinutes preNightCap job_pool dte week_end
        ((startWd + (dte - start)) % 7) ws hD
      have hlt : ws.totalWeek < weeklyCap := h1.2
      linarith
    · exact hws

/-- C9 (amended): schedule_week_geographic enforces no weekly cap (see the
counterexample), while schedule_technician_week checks the accumulated total
only at the start of each date against min(max_weekly_hours,
weekly_target_hours_max); therefore, when no fixed jobs are pinned, the V4a
weekly total is bounded by that cap plus one further day's hours — at most
min(max_weekly_hours, weekly_target_hours_max) + max_daily_hours. -/
theorem C9_weekly_cap (dist : Dist) (home : Loc) (maxDaily maxWeekly : ℚ)
    (in_scope : List V4a.VJob) (targets : List String) (assigned : List ℤ)
    (allowFiller : Bool) (maxDrive : ℚ) (preNightCap : ℕ) (job_pool : List V4a.VJob)
    (start startWd : ℤ) (wtm : ℚ) (hD : 0 ≤ maxDaily)
    (hW : 0 ≤ min maxWeekly wtm) :
    (V4a.schedule_technician_week dist home maxDaily maxWeekly in_scope targets
        assigned allowFiller maxDrive preNightCap [] job_pool start startWd
        wtm).totalWeek
      ≤ min maxWeekly wtm + maxDaily := by
  simp only [V4a.schedule_technician_week, List.foldl_nil]
  exact V4a.v4aWeekLoop_totalWeek_le dist home maxDaily assigned allowFiller maxDrive
    preNightCap job_pool start (start + 6) startWd (min maxWeekly wtm) hD 7 start _
    (by show (0 : ℚ) ≤ min maxWeekly wtm + maxDaily; linarith)

/-- C9 witness: the weekly bound at a concrete empty pool under the default
caps (min 50 50 + 14 = 64). -/
theorem C9_weekly_cap_witness :
    (V4a.schedule_technician_week zdist (0, 7) 14 50 [] [] [] true 60 4 [] []
        0 0 50).totalWeek ≤ 64 := by
  exact (C9_weekly_cap zdist (0, 7) 14 50 [] [] [] true 60 4 [] 0 0 50
    (by norm_num) (by norm_num)).trans (by norm_num)

end SchedGPT
